import Mathlib

/-!
Verification development for the photo-gallery component of the
`ourlifejourneys` travel-blog repository (`src/gallery.js`).

The JavaScript source is shallowly embedded below.  JS strings are Lean
`String`s (operated on through their character lists); a JS value that may
fail the `typeof value === 'string'` test (absent field, `null`, a
non-string value) is an `Option String` with `none` for the non-string
case.  Truthiness of a JS string is non-emptiness.  Asynchronous network
effects are passed in explicitly: each adapter takes the outcome of its
fetch as a value, and the resolution pipeline additionally returns the
list of adapters it actually attempted, so that claims about "no later
adapter is attempted" are statements about that trace.
-/

namespace PhotoGallery

/-- Whitespace as recognised by JS `String.prototype.trim` and the regex
class `\s` (the ASCII cases plus NBSP, BOM and the line separators, which
are the ones that can occur in the data handled here). -/
def isJsWs (c : Char) : Bool :=
  c = ' ' || c = '\t' || c = '\n' || c = '\r' ||
  c = '\x0b' || c = '\x0c' || c = ' ' ||
  c = ' ' || c = ' ' || c = '﻿'

/-- `cs` with leading and trailing JS whitespace removed. -/
def jsTrimList (cs : List Char) : List Char :=
  ((cs.dropWhile isJsWs).reverse.dropWhile isJsWs).reverse

/-- JS `value.trim()`. -/
def jsTrim (s : String) : String := ⟨jsTrimList s.data⟩

/-- JS `String.prototype.toLowerCase` restricted to ASCII letters (the
only case-carrying characters in the messages and modes handled here). -/
def jsLowerChar (c : Char) : Char :=
  if 'A' ≤ c ∧ c ≤ 'Z' then Char.ofNat (c.toNat + 32) else c

/-- Lower-cases every character of a string. -/
def jsToLower (s : String) : String := ⟨s.data.map jsLowerChar⟩

/-- `PhotoGallery.textOrDefault(value, fallback)` from `src/gallery.js`:
non-strings map to the fallback, strings are trimmed and replaced by the
fallback when blank. -/
def textOrDefault (value : Option String) (fallback : String) : String :=
  match value with
  | none => fallback
  | some s =>
      let trimmed := jsTrim s
      if trimmed.length > 0 then trimmed else fallback

/-- `textOrDefault` at a value that is known to be a string. -/
def textOrDefaultS (value : String) (fallback : String) : String :=
  textOrDefault (some value) fallback

/-- JS `a || b` for a string-or-absent left operand (`''` and absent are
falsy). -/
def jsOrOption (a : Option String) (b : Option String) : Option String :=
  match a with
  | some s => if s = "" then b else some s
  | none => b

/-- JS `a || b` where the right operand is a plain string. -/
def jsOrElse (a : Option String) (b : String) : String :=
  match a with
  | some s => if s = "" then b else s
  | none => b

/-- `needle` occurs as a contiguous sublist of the argument
(JS `String.prototype.includes`). -/
def hasSubList (needle : List Char) : List Char → Bool
  | [] => needle.isEmpty
  | c :: cs => needle.isPrefixOf (c :: cs) || hasSubList needle cs

/-- JS `haystack.includes(needle)`. -/
def hasSub (needle haystack : String) : Bool :=
  hasSubList needle.data haystack.data

/-- One-or-two digits, whitespace, three ASCII letters, whitespace, four
digits: the tail of the date regex `\d{1,2}\s[A-Za-z]{3}\s\d{4}` after
its leading digits. -/
def dateTail : List Char → Bool
  | w1 :: a :: b :: c :: w2 :: d1 :: d2 :: d3 :: d4 :: _ =>
      isJsWs w1 && a.isAlpha && b.isAlpha && c.isAlpha && isJsWs w2 &&
      d1.isDigit && d2.isDigit && d3.isDigit && d4.isDigit
  | _ => false

/-- The regex `\d{1,2}\s[A-Za-z]{3}\s\d{4}` matches at the head of the
list (with one or with two leading digits). -/
def dateAt : List Char → Bool
  | [] => false
  | d :: rest =>
      d.isDigit &&
        (dateTail rest ||
          (match rest with
            | d2 :: rest2 => d2.isDigit && dateTail rest2
            | [] => false))

/-- JS `/\d{1,2}\s[A-Za-z]{3}\s\d{4}/.test(...)`: the pattern matches at
some position of the list. -/
def containsDateList : List Char → Bool
  | [] => false
  | c :: cs => dateAt (c :: cs) || containsDateList cs

/-- The date regex fires somewhere in the string. -/
def containsDate (s : String) : Bool := containsDateList s.data

/-- Removes the trailing `\.[^/.]+$` match (JS extension stripping in
`derivePhotoTitle`): if the string ends in a dot followed by one or more
characters none of which is `/` or `.`, that suffix is removed. -/
def stripExtension (cs : List Char) : List Char :=
  let r := cs.reverse
  let ext := r.takeWhile (fun c => c ≠ '.' && c ≠ '/')
  match r.drop ext.length with
  | '.' :: rem => if ext.isEmpty then cs else rem.reverse
  | _ => cs

/-- Replaces every maximal run of characters satisfying `p` by the single
character `rep` (JS `replace(/X+/g, rep)` for a character class `X`). -/
def collapseRuns (p : Char → Bool) (rep : Char) : List Char → Bool → List Char
  | [], _ => []
  | c :: cs, inRun =>
      if p c then
        if inRun then collapseRuns p rep cs true
        else rep :: collapseRuns p rep cs true
      else c :: collapseRuns p rep cs false

/-- `PhotoGallery.derivePhotoTitle(fileName, fallbackIndex)`: blank or
non-string names give `Photo <n>`; otherwise the extension is stripped,
runs of `-`/`_` become spaces, whitespace is collapsed and the result is
trimmed. -/
def derivePhotoTitle (fileName : Option String) (fallbackIndex : Nat) : String :=
  match fileName with
  | none => "Photo " ++ toString fallbackIndex
  | some s =>
      if (jsTrim s).length = 0 then "Photo " ++ toString fallbackIndex
      else
        ⟨jsTrimList
          (collapseRuns isJsWs ' '
            (collapseRuns (fun c => c = '-' || c = '_') ' ' (stripExtension s.data) false)
            false)⟩

/-- The part of the list after the first occurrence of `" - "`, when the
separator occurs (JS `split(' - ').slice(1).join(' - ')`). -/
def afterFirstSep : List Char → Option (List Char)
  | ' ' :: '-' :: ' ' :: rest => some rest
  | _ :: rest => afterFirstSep rest
  | [] => none

/-- `PhotoGallery.derivePhotoDescription(title, fallbackDescription)`:
the detail part (after the first `" - "` when present, the whole trimmed
title otherwise) becomes `Captured on <detail>.` when the date regex
fires on it; otherwise the trimmed fallback (default `Travel memory.`). -/
def derivePhotoDescription (title : String) (fallbackDescription : String) : String :=
  let normalizedTitle := textOrDefaultS title ""
  let normalizedFallback := textOrDefaultS fallbackDescription "Travel memory."
  if normalizedTitle = "" then normalizedFallback
  else
    let detail : String :=
      match afterFirstSep normalizedTitle.data with
      | some rest => ⟨jsTrimList rest⟩
      | none => normalizedTitle
    if containsDate detail then "Captured on " ++ detail ++ "."
    else normalizedFallback

/-- `PhotoGallery.isConfiguredShareLink`. -/
def isConfiguredShareLink (shareLink : Option String) : Bool :=
  match shareLink with
  | none => false
  | some s => (jsTrim s).length > 0 && !(hasSub "PASTE_" s)

/-- `PhotoGallery.isConfiguredApiEndpoint`. -/
def isConfiguredApiEndpoint (apiEndpoint : Option String) : Bool :=
  match apiEndpoint with
  | none => false
  | some s => (jsTrim s).length > 0 && !(hasSub "PASTE_" s)

/-- `PhotoGallery.classifyLoadState(message, statusCode)`. -/
def classifyLoadState (message : String) (statusCode : Nat) : String :=
  let normalized := jsToLower (textOrDefaultS message "")
  if hasSub "no image files" normalized || hasSub "no image entries" normalized ||
      hasSub "does not contain images" normalized || hasSub "no photos" normalized ||
      hasSub "empty manifest" normalized then "empty"
  else if statusCode = 404 || hasSub "not found" normalized ||
      hasSub "manifest not found" normalized || hasSub "missing" normalized then "missing"
  else "error"

/-- One raw entry of a OneDrive listing: the fields of `item` read by
`isImageItem`, `itemDownloadUrl` and `mapOneDriveItemsToPhotos`.  A field
is `none` when absent or not a string; `image` is the truthiness of
`item.image`. -/
structure DriveObj where
  name : Option String
  image : Bool
  mimeType : Option String
  id : Option String
  contentUrl : Option String
  graphUrl : Option String
  webUrl : Option String
deriving DecidableEq

/-- An element of a listing page: either a JSON value that is not a
(truthy) object, or an object with the fields above. -/
inductive RawItem where
  | junk : RawItem
  | obj : DriveObj → RawItem
deriving DecidableEq

/-- `item.name` when `item` is an object (otherwise JS `left && left.name`
is falsy). -/
def itemName : RawItem → Option String
  | .junk => none
  | .obj o => o.name

/-- `PhotoGallery.isImageItem`. -/
def isImageItem : RawItem → Bool
  | .junk => false
  | .obj o =>
      o.image ||
        (let mimeType := jsToLower (match o.mimeType with | some m => m | none => "")
         "image/".data.isPrefixOf mimeType.data)

/-- `PhotoGallery.itemDownloadUrl`. -/
def itemDownloadUrl : RawItem → String
  | .junk => ""
  | .obj o => jsOrElse o.contentUrl (jsOrElse o.graphUrl (jsOrElse o.webUrl ""))

/-- `item.id || src`: the deduplication key of a kept item. -/
def uniqueKeyOf (item : RawItem) : String :=
  match item with
  | .junk => itemDownloadUrl item
  | .obj o => jsOrElse o.id (itemDownloadUrl item)

/-- Three-way comparison of naturals. -/
def natCmp (a b : Nat) : Ordering :=
  if a < b then .lt else if b < a then .gt else .eq

/-- Three-way lexicographic comparison of pairs of naturals. -/
def pairCmp (x y : Nat × Nat) : Ordering :=
  match natCmp x.1 y.1 with
  | .eq => natCmp x.2 y.2
  | o => o

/-- Three-way lexicographic comparison of lists of pairs. -/
def listCmp : List (Nat × Nat) → List (Nat × Nat) → Ordering
  | [], [] => .eq
  | [], _ :: _ => .lt
  | _ :: _, [] => .gt
  | x :: xs, y :: ys =>
      match pairCmp x y with
      | .eq => listCmp xs ys
      | o => o

/-- Collation key of one string position onward: maximal digit runs
become `(0, value)` tokens (numeric substrings compare as numbers, and
sort before letters), any other character becomes `(1, lower-cased code)`
(`sensitivity: 'base'` ignores case).  `acc` carries the value of a
pending digit run. -/
def natKeyGo : List Char → Option Nat → List (Nat × Nat)
  | [], none => []
  | [], some v => [(0, v)]
  | c :: cs, acc =>
      if c.isDigit then
        natKeyGo cs (some ((acc.getD 0) * 10 + (c.toNat - '0'.toNat)))
      else
        match acc with
        | some v => (0, v) :: (1, (jsLowerChar c).toNat) :: natKeyGo cs none
        | none => (1, (jsLowerChar c).toNat) :: natKeyGo cs none

/-- Collation key of a whole string. -/
def natKey (s : String) : List (Nat × Nat) := natKeyGo s.data none

/-- Modelled from the spec: `left.localeCompare(right, undefined,
{ numeric: true, sensitivity: 'base' })` — the platform collator is not
part of the repository, and the spec describes it as "locale-aware
natural ordering (numeric substrings compared as numbers)". -/
def localeNaturalCmp (a b : String) : Ordering :=
  listCmp (natKey a) (natKey b)

/-- The sort key used by the comparator in `mapOneDriveItemsToPhotos`:
`PhotoGallery.textOrDefault(item && item.name, '')`. -/
def sortName (item : RawItem) : String := textOrDefault (itemName item) ""

/-- `comparator(left, right) <= 0` for the natural-order comparator. -/
def itemLe (left right : RawItem) : Bool :=
  localeNaturalCmp (sortName left) (sortName right) ≠ .gt

/-- Stable insertion of `x` into a list (earlier-arriving elements stay in
front of later equal ones, as JS `Array.prototype.sort` guarantees). -/
def sortInsert (le : α → α → Bool) (x : α) : List α → List α
  | [] => [x]
  | y :: ys => if le x y then x :: y :: ys else y :: sortInsert le x ys

/-- Stable comparison sort: the model of `[...items].sort(comparator)`
(any stable sort agrees with it on a total preorder). -/
def stableSort (le : α → α → Bool) : List α → List α
  | [] => []
  | x :: xs => sortInsert le x (stableSort le xs)

/-- One photo record `{ src, title, description }`. -/
structure PhotoRecord where
  src : String
  title : String
  description : String
deriving DecidableEq

/-- The record pushed for a kept item when `photos.length + 1 = idx`. -/
def mkOneDrivePhoto (description : String) (idx : Nat) (item : RawItem) : PhotoRecord :=
  let title := derivePhotoTitle (itemName item) idx
  { src := itemDownloadUrl item
    title := title
    description := derivePhotoDescription title description }

/-- The filter/dedup loop of `mapOneDriveItemsToPhotos`: skips non-image
items, items without a resolvable URL and items whose key is in `seen`;
otherwise pushes a record (the fallback index is the running photo
count + 1) and records the key. -/
def oneDriveLoop (description : String) :
    List RawItem → List PhotoRecord → List String → List PhotoRecord
  | [], photos, _ => photos
  | item :: rest, photos, seen =>
      if !(isImageItem item) then oneDriveLoop description rest photos seen
      else if itemDownloadUrl item = "" then oneDriveLoop description rest photos seen
      else if seen.contains (uniqueKeyOf item) then oneDriveLoop description rest photos seen
      else
        oneDriveLoop description rest
          (photos ++ [mkOneDrivePhoto description (photos.length + 1) item])
          (uniqueKeyOf item :: seen)

/-- `PhotoGallery.mapOneDriveItemsToPhotos(items, description)`. -/
def mapOneDriveItemsToPhotos (items : List RawItem) (description : String) :
    List PhotoRecord :=
  oneDriveLoop description (stableSort itemLe items) [] []

/-- The sub-list of items the loop keeps, given the keys already seen. -/
def keptItems (seen : List String) : List RawItem → List RawItem
  | [] => []
  | item :: rest =>
      if isImageItem item && itemDownloadUrl item ≠ "" &&
          !(seen.contains (uniqueKeyOf item)) then
        item :: keptItems (uniqueKeyOf item :: seen) rest
      else keptItems seen rest

/-- The kept items of an input list, in emission order. -/
def keptOf (items : List RawItem) : List RawItem :=
  keptItems [] (stableSort itemLe items)

/-- The records produced for a kept list, with fallback indices counting
on from `base`. -/
def photosOfKept (description : String) (base : Nat) : List RawItem → List PhotoRecord
  | [] => []
  | item :: rest =>
      mkOneDrivePhoto description (base + 1) item ::
        photosOfKept description (base + 1) rest

/-- A plain image item with the given name, id and download URL. -/
def imageItem (name : Option String) (id : Option String) (url : String) : RawItem :=
  .obj { name := name, image := true, mimeType := none, id := id,
         contentUrl := some url, graphUrl := none, webUrl := none }

/-- One row of a JSON manifest (API or local): either not a truthy
object, or an object with the string fields the parsers read. -/
inductive RawRow where
  | junk : RawRow
  | obj (src thumbnail downloadUrl title description name : Option String) : RawRow
deriving DecidableEq

/-- `row && typeof row === 'object'`. -/
def isObjRow : RawRow → Bool
  | .junk => false
  | .obj _ _ _ _ _ _ => true

/-- Field getters of a manifest row (`none` on non-objects). -/
def rowSrc : RawRow → Option String
  | .junk => none
  | .obj s _ _ _ _ _ => s

def rowThumbnail : RawRow → Option String
  | .junk => none
  | .obj _ t _ _ _ _ => t

def rowDownloadUrl : RawRow → Option String
  | .junk => none
  | .obj _ _ d _ _ _ => d

def rowTitle : RawRow → Option String
  | .junk => none
  | .obj _ _ _ t _ _ => t

def rowDescription : RawRow → Option String
  | .junk => none
  | .obj _ _ _ _ d _ => d

def rowName : RawRow → Option String
  | .junk => none
  | .obj _ _ _ _ _ n => n

/-- The parsed JSON body of a manifest response: a bare array, an object
with a `photos` array, or anything else. -/
inductive ManifestData where
  | arr (rows : List RawRow)
  | objPhotos (rows : List RawRow)
  | other
deriving DecidableEq

/-- `Array.isArray(data) ? data : (Array.isArray(data && data.photos) ?
data.photos : [])`. -/
def manifestRows : ManifestData → List RawRow
  | .arr rows => rows
  | .objPhotos rows => rows
  | .other => []

/-- `PhotoGallery.parseApiManifest(data, description)` (with the
`thumbnail`/`downloadUrl` fallbacks for `src`). -/
def parseApiManifest (data : ManifestData) (description : String) : List PhotoRecord :=
  (((manifestRows data).filter isObjRow).enum.map (fun p =>
      let row := p.2
      let src := textOrDefault (rowSrc row)
        (textOrDefault (rowThumbnail row)
          (textOrDefault (rowDownloadUrl row) ""))
      let title := textOrDefault (rowTitle row) (derivePhotoTitle (rowName row) (p.1 + 1))
      { src := src
        title := title
        description := textOrDefault (rowDescription row)
          (derivePhotoDescription title description) : PhotoRecord })).filter
    (fun photo => photo.src.length > 0)

/-- `PhotoGallery.parseLocalManifest(data, description)` (no
`thumbnail`/`downloadUrl` fallback). -/
def parseLocalManifest (data : ManifestData) (description : String) : List PhotoRecord :=
  (((manifestRows data).filter isObjRow).enum.map (fun p =>
      let row := p.2
      let title := textOrDefault (rowTitle row) (derivePhotoTitle (rowName row) (p.1 + 1))
      { src := textOrDefault (rowSrc row) ""
        title := title
        description := textOrDefault (rowDescription row)
          (derivePhotoDescription title description) : PhotoRecord })).filter
    (fun photo => photo.src.length > 0)

/-- The parsed JSON body of one listing page, as read by
`extractItemsPage`: a `value` array, a `children` array (each with an
optional continuation link) or anything else (including `null`). -/
inductive PageData where
  | junk : PageData
  | valuePage (items : List RawItem) (nextLink : Option String) : PageData
  | childrenPage (items : List RawItem) (nextLink : Option String) : PageData
deriving DecidableEq

/-- `nextLink || null` (an empty-string link is falsy). -/
def truthyLink : Option String → Option String
  | some s => if s = "" then none else some s
  | none => none

/-- `PhotoGallery.extractItemsPage(data)`. -/
def extractItemsPage : PageData → List RawItem × Option String
  | .junk => ([], none)
  | .valuePage items nextLink => (items, truthyLink nextLink)
  | .childrenPage items nextLink => (items, truthyLink nextLink)

/-- The exact error message thrown on the cap breach. -/
def paginationErrorMessage : String := "OneDrive pagination did not terminate."

/-- The body of `collectPagedItems`: `fetch` is the outcome of
`fetchJson` on a continuation link (`.error` models a rejected fetch),
`fuel` is the number of pagination links that may still be followed
(`100 - pageCount` in the source), and the returned trace lists the links
actually fetched.  The loop pushes the current page's items, stops when
there is no continuation link, and throws once the cap is breached
*before* fetching the next page. -/
def collectAux (fetch : String → Except String PageData) :
    PageData → Nat → Except String (List RawItem) × List String
  | page, fuel =>
      let extracted := extractItemsPage page
      match extracted.2 with
      | none => (.ok extracted.1, [])
      | some link =>
          match fuel with
          | 0 => (.error paginationErrorMessage, [])
          | fuelLeft + 1 =>
              match fetch link with
              | .error e => (.error e, [link])
              | .ok next =>
                  let rest := collectAux fetch next fuelLeft
                  (rest.1.map (fun items => extracted.1 ++ items), link :: rest.2)

/-- `PhotoGallery.collectPagedItems(firstPage)` (the counter starts at 0
and the loop throws when it exceeds 100, i.e. after following 100
links). -/
def collectPagedItems (fetch : String → Except String PageData) (firstPage : PageData) :
    Except String (List RawItem) × List String :=
  collectAux fetch firstPage 100

/-- The chain of pages starting at `p` ends after following `links`
(every fetch succeeding), producing `items`: the concatenation of the
pages' item arrays in page order. -/
inductive ChainEnds (fetch : String → Except String PageData) :
    PageData → List String → List RawItem → Prop where
  | last (p : PageData) (h : (extractItemsPage p).2 = none) :
      ChainEnds fetch p [] (extractItemsPage p).1
  | step (p : PageData) (link : String) (q : PageData) (links : List String)
      (items : List RawItem)
      (hl : (extractItemsPage p).2 = some link) (hf : fetch link = .ok q)
      (htail : ChainEnds fetch q links items) :
      ChainEnds fetch p (link :: links) ((extractItemsPage p).1 ++ items)

/-- From `p`, following the continuation links `links` (every fetch
succeeding) reaches page `q`. -/
inductive Reaches (fetch : String → Except String PageData) :
    PageData → List String → PageData → Prop where
  | refl (p : PageData) : Reaches fetch p [] p
  | step (p : PageData) (link : String) (q r : PageData) (links : List String)
      (hl : (extractItemsPage p).2 = some link) (hf : fetch link = .ok q)
      (htail : Reaches fetch q links r) :
      Reaches fetch p (link :: links) r

/-- What an adapter attempt leaves behind: the photo list on success
(always non-empty), and the recorded classified state and error message
(`lastXxxState` / `lastXxxErrorMessage`) on failure. -/
structure Attempt where
  photos : Option (List PhotoRecord)
  state : String
  message : String
deriving DecidableEq

/-- The outcome of a manifest fetch: a rejected promise (`fetch` or
`response.json()` throwing, with the thrown error's message when it is a
string) or a settled response with its HTTP status and parsed body. -/
inductive HttpFetch where
  | netError (message : Option String)
  | response (status : Nat) (data : ManifestData)
deriving DecidableEq

/-- `response.ok`. -/
def httpOk (status : Nat) : Bool := 200 ≤ status && status ≤ 299

/-- `PhotoGallery.fromApi` reduced to its attempt outcome: non-ok
statuses throw `Gallery API request failed (<status>).`, an empty parse
throws `Gallery API returned no image entries.`, and the catch block
records `classifyLoadState(message, responseStatus)`. -/
def fromApiAttempt (f : HttpFetch) (description : String) : Attempt :=
  match f with
  | .netError msg =>
      let message := textOrDefault msg "Could not connect to gallery API."
      { photos := none, state := classifyLoadState message 0, message := message }
  | .response status data =>
      if httpOk status then
        let photos := parseApiManifest data description
        if photos.isEmpty then
          let message := "Gallery API returned no image entries."
          { photos := none, state := classifyLoadState message status, message := message }
        else { photos := some photos, state := "success", message := "" }
      else
        let message := "Gallery API request failed (" ++ toString status ++ ")."
        { photos := none, state := classifyLoadState message status, message := message }

/-- `PhotoGallery.fromLocal` reduced to its attempt outcome. -/
def fromLocalAttempt (f : HttpFetch) (description : String) : Attempt :=
  match f with
  | .netError msg =>
      let message := textOrDefault msg "Could not load local gallery."
      { photos := none, state := classifyLoadState message 0, message := message }
  | .response status data =>
      if httpOk status then
        let photos := parseLocalManifest data description
        if photos.isEmpty then
          let message := "Local manifest does not contain images."
          { photos := none, state := classifyLoadState message status, message := message }
        else { photos := some photos, state := "success", message := "" }
      else
        let message := "Local manifest not found."
        { photos := none, state := classifyLoadState message status, message := message }

/-- `PhotoGallery.fromOneDrive` reduced to its attempt outcome, over the
result of `fetchOneDriveItems` (which either yields the raw entries of
the first working listing endpoint or rejects with an error message);
the catch block classifies with status code 0. -/
def fromOneDriveAttempt (r : Except String (List RawItem)) (description : String) :
    Attempt :=
  match r with
  | .error err =>
      let message := textOrDefaultS err "Could not connect to OneDrive."
      { photos := none, state := classifyLoadState message 0, message := message }
  | .ok items =>
      let photos := mapOneDriveItemsToPhotos items description
      if photos.isEmpty then
        let message := "No image files were found in this shared album."
        { photos := none, state := classifyLoadState message 0, message := message }
      else { photos := some photos, state := "success", message := "" }

/-- The three adapters, in the order `loadBestSource` tries them. -/
inductive Source where
  | api
  | oneDrive
  | localManifest
deriving DecidableEq

/-- The terminal fallback panels. -/
inductive Panel where
  | noPhotos
  | comingSoon
deriving DecidableEq

/-- What `loadBestSource` produces: a rendered gallery (a non-null
return) or a `null` return with one of the terminal panels rendered. -/
inductive LoadOutcome where
  | gallery (photos : List PhotoRecord)
  | fallback (panel : Panel)
deriving DecidableEq

/-- The destructured configuration argument of `loadBestSource`. -/
structure LoadConfig where
  apiEndpoint : Option String
  shareLink : Option String
  localJsonPath : Option String
  destinationName : String

/-- The outcomes of the network operations an invocation of
`loadBestSource` could perform, one per adapter. -/
structure FetchWorld where
  apiFetch : HttpFetch
  oneDriveItems : Except String (List RawItem)
  localFetch : HttpFetch

/-- `typeof localJsonPath === 'string' && localJsonPath.trim().length >
0` (no placeholder check for the local path). -/
def hasConfiguredLocalPath (p : Option String) : Bool :=
  match p with
  | none => false
  | some s => (jsTrim s).length > 0

/-- The description `loadBestSource` hands every adapter. -/
def descOf (cfg : LoadConfig) : String :=
  "Memories from " ++ cfg.destinationName ++ "."

/-- `statusSignals.includes('empty') ? renderNoPhotos : renderComingSoon`. -/
def finalPanel (signals : List String) : Panel :=
  if signals.contains "empty" then .noPhotos else .comingSoon

/-- The local-manifest block of `loadBestSource` followed by the terminal
panel choice; `signals` and `trace` carry the states and adapters of the
earlier attempts. -/
def localStage (cfg : LoadConfig) (w : FetchWorld) (description : String)
    (signals : List String) (trace : List Source) : LoadOutcome × List Source :=
  if hasConfiguredLocalPath cfg.localJsonPath then
    let attempt := fromLocalAttempt w.localFetch description
    match attempt.photos with
    | some ph => (.gallery ph, trace ++ [.localManifest])
    | none =>
        (.fallback (finalPanel (signals ++ [textOrDefaultS attempt.state "error"])),
          trace ++ [.localManifest])
  else (.fallback (finalPanel signals), trace)

/-- The cloud-share block of `loadBestSource`. -/
def shareStage (cfg : LoadConfig) (w : FetchWorld) (description : String)
    (signals : List String) (trace : List Source) : LoadOutcome × List Source :=
  if isConfiguredShareLink cfg.shareLink then
    let attempt := fromOneDriveAttempt w.oneDriveItems description
    match attempt.photos with
    | some ph => (.gallery ph, trace ++ [.oneDrive])
    | none =>
        localStage cfg w description
          (signals ++ [textOrDefaultS attempt.state "error"]) (trace ++ [.oneDrive])
  else localStage cfg w description signals trace

/-- `PhotoGallery.loadBestSource(config)`: API, then cloud share, then
local manifest; the first attempt returning a gallery is terminal,
otherwise the merged failure signals choose the panel.  The second
component is the list of adapters attempted, in order. -/
def loadBestSource (cfg : LoadConfig) (w : FetchWorld) : LoadOutcome × List Source :=
  let description := descOf cfg
  if isConfiguredApiEndpoint cfg.apiEndpoint then
    let attempt := fromApiAttempt w.apiFetch description
    match attempt.photos with
    | some ph => (.gallery ph, [.api])
    | none =>
        shareStage cfg w description [textOrDefaultS attempt.state "error"] [.api]
  else shareStage cfg w description [] []

/-- The adapters `loadBestSource` would consider for this configuration,
in order. -/
def configuredSources (cfg : LoadConfig) : List Source :=
  (if isConfiguredApiEndpoint cfg.apiEndpoint then [Source.api] else []) ++
  (if isConfiguredShareLink cfg.shareLink then [Source.oneDrive] else []) ++
  (if hasConfiguredLocalPath cfg.localJsonPath then [Source.localManifest] else [])

/-- The attempt outcome of one adapter in a fixed world. -/
def attemptOf (w : FetchWorld) (description : String) : Source → Attempt
  | .api => fromApiAttempt w.apiFetch description
  | .oneDrive => fromOneDriveAttempt w.oneDriveItems description
  | .localManifest => fromLocalAttempt w.localFetch description

/-- First-success resolution over a list of attempts: the reference
shape `loadBestSource` is proved equal to. -/
def resolveChain : List (Source × Attempt) → List String → List Source →
    LoadOutcome × List Source
  | [], signals, trace => (.fallback (finalPanel signals), trace)
  | (s, a) :: rest, signals, trace =>
      match a.photos with
      | some ph => (.gallery ph, trace ++ [s])
      | none =>
          resolveChain rest (signals ++ [textOrDefaultS a.state "error"]) (trace ++ [s])

/-- `PhotoGallery.resolveSourceMode(rawMode, fallback)`. -/
def resolveSourceMode (rawMode : String) (fallback : String) : String :=
  let normalized := jsToLower (textOrDefaultS rawMode "")
  if normalized = "auto" || normalized = "gallery" || normalized = "best" then "auto"
  else if normalized = "album" || normalized = "direct" ||
      normalized = "shared-album" || normalized = "onedrive" then "album"
  else fallback

/-- The browser's per-origin key-value store, modelled as an association
list (latest write first). -/
abbrev Store := List (String × String)

/-- `localStorage.getItem(key)` (`null` when the key is absent). -/
def storeGet (st : Store) (key : String) : Option String :=
  (st.find? (fun e => e.1 == key)).map (fun e => e.2)

/-- `localStorage.setItem(key, value)`. -/
def storeSet (st : Store) (key value : String) : Store :=
  (key, value) :: st

/-- `PhotoGallery.safeLocalStorageGet(key)` on a working store. -/
def safeLocalStorageGet (st : Store) (key : String) : String :=
  textOrDefault (storeGet st key) ""

/-- `params.get('galleryMode') || params.get('sourceMode') ||
params.get('gallery')` wrapped in `textOrDefault(..., '')`. -/
def queryModeOf (params : String → Option String) : String :=
  textOrDefault
    (jsOrOption (params "galleryMode")
      (jsOrOption (params "sourceMode") (params "gallery"))) ""

/-- `PhotoGallery.getInitialSourceMode(storageKey, defaultMode)`: a valid
query-parameter mode wins and is persisted; otherwise the stored mode is
resolved against the caller's default.  Returns the mode together with
the store after the call. -/
def getInitialSourceMode (params : String → Option String) (st : Store)
    (storageKey : String) (defaultMode : String) : String × Store :=
  let queryMode := queryModeOf params
  if queryMode ≠ "" then
    let resolvedFromQuery := resolveSourceMode queryMode ""
    if resolvedFromQuery ≠ "" then
      (resolvedFromQuery, storeSet st storageKey resolvedFromQuery)
    else (resolveSourceMode (safeLocalStorageGet st storageKey) defaultMode, st)
  else (resolveSourceMode (safeLocalStorageGet st storageKey) defaultMode, st)

/-- What `new URL(input, base)` yields for a given input (the base is
fixed by the page): `none` models the constructor throwing, `some`
carries the parsed URL's `protocol` and its serialization
(`toString()`). -/
structure UrlParts where
  protocol : String
  serialized : String
deriving DecidableEq

/-- `PhotoGallery.normalizeExternalUrl(rawUrl)`, parameterised by the
platform URL parser `resolve`. -/
def normalizeExternalUrl (resolve : String → Option UrlParts)
    (rawUrl : Option String) : String :=
  let trimmed := textOrDefault rawUrl ""
  if trimmed = "" then ""
  else
    match resolve trimmed with
    | none => ""
    | some parsed =>
        if parsed.protocol = "http:" || parsed.protocol = "https:" then
          parsed.serialized
        else ""

/-- What `renderDirectAlbumMode` puts in the container: the error panel
(with its message) or the outbound album link. -/
inductive DirectAlbumRender where
  | errorPanel (message : String)
  | albumLink (href : String)
deriving DecidableEq

/-- `PhotoGallery.renderDirectAlbumMode(container, shareLink, ...)`
reduced to its rendering decision. -/
def renderDirectAlbumMode (resolve : String → Option UrlParts)
    (shareLink : Option String) : DirectAlbumRender :=
  let href := normalizeExternalUrl resolve shareLink
  if href = "" then
    .errorPanel "Direct album mode is enabled, but shared link is missing or invalid."
  else .albumLink href

/-- The gallery state read and written by `navigateLightbox`. -/
structure GalleryState where
  photos : List PhotoRecord
  currentPhotoIndex : Int
deriving DecidableEq

/-- `PhotoGallery.prototype.navigateLightbox(direction)`: clamp-to-range
by doing nothing when the moved index would leave `[0, length - 1]`. -/
def navigateLightbox (g : GalleryState) (direction : Int) : GalleryState :=
  let nextIndex := g.currentPhotoIndex + direction
  if nextIndex < 0 ∨ (g.photos.length : Int) ≤ nextIndex then g
  else { g with currentPhotoIndex := nextIndex }

/-- The detail part a title's description is derived from: the trimmed
part after the first `" - "` when the separator occurs, the whole
trimmed title otherwise. -/
def detailOf (title : String) : String :=
  match afterFirstSep (textOrDefaultS title "").data with
  | some rest => ⟨jsTrimList rest⟩
  | none => textOrDefaultS title ""

/-! Concrete data used by the witness theorems. -/

/-- A record for concrete lightbox states. -/
def w8Photo : PhotoRecord :=
  { src := "https://img/1.jpg", title := "Photo 1", description := "d" }

/-- A URL parser resolving exactly one `javascript:` input. -/
def w10Resolve : String → Option UrlParts := fun s =>
  if s = "javascript:alert(1)" then
    some { protocol := "javascript:", serialized := "javascript:alert(1)" }
  else none

/-- Three listing pages linked `w5Page1 → l1 → w5Page2 → l2 → w5Page3`. -/
def w5Page1 : PageData :=
  .valuePage [imageItem (some "a.jpg") none "ua", imageItem (some "b.jpg") none "ub"]
    (some "l1")

def w5Page2 : PageData :=
  .childrenPage [imageItem (some "c.jpg") none "uc", imageItem (some "d.jpg") none "ud"]
    (some "l2")

def w5Page3 : PageData :=
  .valuePage [imageItem (some "e.jpg") none "ue", imageItem (some "f.jpg") none "uf"]
    none

def w5Fetch : String → Except String PageData := fun link =>
  if link = "l1" then .ok w5Page2
  else if link = "l2" then .ok w5Page3
  else .error "OneDrive API request failed (404)."

/-- A configuration with a working API endpoint and a broken share link. -/
def w1Cfg : LoadConfig :=
  { apiEndpoint := some "https://api.example.com/photos.json"
    shareLink := some "https://1drv.ms/f/s!broken"
    localJsonPath := none
    destinationName := "Australia" }

def w1Row : RawRow :=
  .obj (some "https://img/1.jpg") none none (some "Sunrise") (some "Over the bay.") none

def w1Photo : PhotoRecord :=
  { src := "https://img/1.jpg", title := "Sunrise", description := "Over the bay." }

def w1World : FetchWorld :=
  { apiFetch := .response 200 (.arr [w1Row])
    oneDriveItems := .error "OneDrive API request failed (403)."
    localFetch := .response 404 .other }

/-- A configuration with all three adapters configured. -/
def w2Cfg : LoadConfig :=
  { apiEndpoint := some "https://api.example.com/photos.json"
    shareLink := some "https://1drv.ms/f/s!abc"
    localJsonPath := some "data/australia.json"
    destinationName := "Australia" }

/-- All three adapters fail with zero-usable-photos outcomes. -/
def w2World : FetchWorld :=
  { apiFetch := .response 200 (.arr [])
    oneDriveItems := .ok []
    localFetch := .response 200 (.arr []) }

/-- An image item whose name is only an extension. -/
def w3DotItem : RawItem := imageItem (some ".jpg") none "https://x/y.jpg"

/-- An ordinary named image item. -/
def w3Item : RawItem := imageItem (some "Beach_Day 2.jpg") none "https://x/b.jpg"

/-- The record `w3Item` maps to. -/
def w3Photo : PhotoRecord :=
  { src := "https://x/b.jpg", title := "Beach Day 2", description := "Memories." }

def w3Row : RawRow := .obj (some "https://x/r.jpg") none none none none (some "reef.jpg")

/-- Two image items sharing the identifier `X`. -/
def w7ItemA : RawItem := imageItem (some "a.jpg") (some "X") "u1"

def w7ItemB : RawItem := imageItem (some "b.jpg") (some "X") "u2"

/-- Query parameters carrying `galleryMode=Album`. -/
def w9Params : String → Option String := fun p =>
  if p = "galleryMode" then some "Album" else none

example : (mapOneDriveItemsToPhotos
    [imageItem (some "img10.jpg") none "u10",
     imageItem (some "img2.jpg") none "u2",
     imageItem (some "img1.jpg") none "u1"] "d").map PhotoRecord.title =
    ["img1", "img2", "img10"] := by decide

example : (mapOneDriveItemsToPhotos
    [imageItem (some "a.jpg") (some "X") "u1",
     imageItem (some "b.jpg") (some "X") "u2"] "d").length = 1 := by decide

example : (mapOneDriveItemsToPhotos [imageItem (some ".jpg") none "https://x/y.jpg"]
    "d").map PhotoRecord.title = [""] := by decide

example : derivePhotoTitle (some "img10.jpg") 1 = "img10" := by decide
example : derivePhotoTitle (some ".jpg") 1 = "" := by decide
example : derivePhotoTitle (some "My-Trip_photo 01.png") 1 = "My Trip photo 01" := by decide
example : derivePhotoTitle none 3 = "Photo 3" := by decide
example : derivePhotoDescription "Holiday 12 Jan 2024" "Default text." =
    "Captured on Holiday 12 Jan 2024." := by decide
example : derivePhotoDescription "12 Jan 2024 - Beach walk" "Default text." =
    "Default text." := by decide
example : derivePhotoDescription "" " " = "Travel memory." := by decide
example : classifyLoadState "No image files were found in this shared album." 0 = "empty" := by
  decide
example : classifyLoadState "Gallery API request failed (500)." 500 = "error" := by decide
example : classifyLoadState "Local manifest not found." 404 = "missing" := by decide
example : isConfiguredShareLink (some "PASTE_AUSTRALIA_LINK_HERE") = false := by decide

/-! ## Claim theorems -/

/-- C8: with `currentPhotoIndex` in `[0, photos.length - 1]`, navigating
by `+1` or `-1` keeps the index in `[0, photos.length - 1]`; moving left
at index 0 or right at the last index leaves the gallery unchanged (a
no-op, not a wraparound). -/
theorem navigateLightbox_clamped (g : GalleryState) (d : Int)
    (hlo : 0 ≤ g.currentPhotoIndex)
    (hhi : g.currentPhotoIndex ≤ (g.photos.length : Int) - 1) :
    ((d = 1 ∨ d = -1) →
      0 ≤ (navigateLightbox g d).currentPhotoIndex ∧
        (navigateLightbox g d).currentPhotoIndex ≤ (g.photos.length : Int) - 1) ∧
    (g.currentPhotoIndex = 0 → d = -1 → navigateLightbox g d = g) ∧
    (g.currentPhotoIndex = (g.photos.length : Int) - 1 → d = 1 →
      navigateLightbox g d = g) := by
  simp only [navigateLightbox]
  refine ⟨fun hd => ?_, fun h0 hd => ?_, fun hl hd => ?_⟩
  · split
    · exact ⟨hlo, hhi⟩
    · rename_i hcond
      push_neg at hcond
      constructor <;> dsimp only <;> omega
  · rw [if_pos]
    omega
  · rw [if_pos]
    omega

/-- C8 witness: at index 0 of a two-photo gallery, navigating left is a
no-op. -/
theorem navigateLightbox_clamped_witness :
    navigateLightbox { photos := [w8Photo, w8Photo], currentPhotoIndex := 0 } (-1) =
      { photos := [w8Photo, w8Photo], currentPhotoIndex := 0 } :=
  (navigateLightbox_clamped { photos := [w8Photo, w8Photo], currentPhotoIndex := 0 }
    (-1) (by decide) (by decide)).2.1 (by decide) (by decide)

/-- C10: `normalizeExternalUrl` returns the empty string or the
serialization of a URL that parsed with protocol `http:` or `https:`;
any input parsing to another scheme yields `""`, and
`renderDirectAlbumMode` renders the error panel (never an album link)
whenever the normalization is empty. -/
theorem normalizeExternalUrl_http_only (resolve : String → Option UrlParts)
    (raw : Option String) :
    (normalizeExternalUrl resolve raw = "" ∨
      ∃ u, resolve (textOrDefault raw "") = some u ∧
        (u.protocol = "http:" ∨ u.protocol = "https:") ∧
        normalizeExternalUrl resolve raw = u.serialized) ∧
    (∀ u, resolve (textOrDefault raw "") = some u →
      u.protocol ≠ "http:" → u.protocol ≠ "https:" →
      normalizeExternalUrl resolve raw = "") ∧
    (normalizeExternalUrl resolve raw = "" →
      renderDirectAlbumMode resolve raw =
        .errorPanel
          "Direct album mode is enabled, but shared link is missing or invalid.") := by
  refine ⟨?_, ?_, ?_⟩
  · simp only [normalizeExternalUrl]
    split
    · exact Or.inl rfl
    · rename_i htrim
      rcases hres : resolve (textOrDefault raw "") with _ | parsed
    -- none
      · exact Or.inl rfl
      · by_cases hp : parsed.protocol = "http:" ∨ parsed.protocol = "https:"
        · refine Or.inr ⟨parsed, rfl, hp, ?_⟩
          rcases hp with h | h <;> simp [h]
        · push_neg at hp
          left
          simp [hp.1, hp.2]
  · intro u hres h1 h2
    simp only [normalizeExternalUrl]
    split
    · rfl
    · rw [hres]
      simp [h1, h2]
  · intro hempty
    simp only [renderDirectAlbumMode]
    rw [if_pos hempty]

/-- C10 witness: a `javascript:` share link normalizes to `""` and direct
album mode renders the error panel for it. -/
theorem normalizeExternalUrl_http_only_witness :
    normalizeExternalUrl w10Resolve (some "javascript:alert(1)") = "" ∧
      renderDirectAlbumMode w10Resolve (some "javascript:alert(1)") =
        .errorPanel
          "Direct album mode is enabled, but shared link is missing or invalid." := by
  have h := normalizeExternalUrl_http_only w10Resolve (some "javascript:alert(1)")
  have hempty := h.2.1 { protocol := "javascript:", serialized := "javascript:alert(1)" }
    (by decide) (by decide) (by decide)
  exact ⟨hempty, h.2.2 hempty⟩

/-- C4 counterexample: for the derived title `Holiday 12 Jan 2024` (whose
only date-pattern substrings are `12 Jan 2024` and `2 Jan 2024`) the
description keeps the whole title, not just the date; and for the title
`12 Jan 2024 - Beach walk`, which contains a date-pattern substring, the
description is the caller default, not a `Captured on` string. -/
theorem derivePhotoDescription_whole_detail_cex :
    derivePhotoDescription "Holiday 12 Jan 2024" "Default text." =
        "Captured on Holiday 12 Jan 2024." ∧
      containsDate "Holiday 12 Jan 2024" = true ∧
      derivePhotoDescription "Holiday 12 Jan 2024" "Default text." ≠
        "Captured on 12 Jan 2024." ∧
      derivePhotoDescription "Holiday 12 Jan 2024" "Default text." ≠
        "Captured on 2 Jan 2024." ∧
      containsDate "12 Jan 2024 - Beach walk" = true ∧
      derivePhotoDescription "12 Jan 2024 - Beach walk" "Default text." =
        "Default text." := by
  decide

/-- C4 amended: when the *detail part* of the title (the portion after
the first `" - "` separator, or the whole trimmed title when there is no
separator) matches the date pattern, the description is `Captured on `
followed by that whole detail part and `.`; otherwise (and for blank
titles) it is the trimmed caller default, `Travel memory.` when that
default is blank. -/
theorem derivePhotoDescription_amended (title fallback : String) :
    (textOrDefaultS title "" = "" →
      derivePhotoDescription title fallback = textOrDefaultS fallback "Travel memory.") ∧
    (textOrDefaultS title "" ≠ "" →
      (containsDate (detailOf title) = true →
        derivePhotoDescription title fallback = "Captured on " ++ detailOf title ++ ".") ∧
      (containsDate (detailOf title) = false →
        derivePhotoDescription title fallback =
          textOrDefaultS fallback "Travel memory.")) := by
  unfold derivePhotoDescription detailOf
  refine ⟨fun h0 => ?_, fun h0 => ⟨fun hd => ?_, fun hd => ?_⟩⟩
  · rw [if_pos h0]
  · rw [if_neg h0]
    split at hd <;> simp_all
  · rw [if_neg h0]
    split at hd <;> simp_all

/-- C4 amended witness: a title whose detail part is exactly a date. -/
theorem derivePhotoDescription_amended_witness :
    derivePhotoDescription "Sunset - 1 Jan 2020" "x" = "Captured on 1 Jan 2020." :=
  ((derivePhotoDescription_amended "Sunset - 1 Jan 2020" "x").2 (by decide)).1 (by decide)

/-- A mode that resolves away from the empty fallback is one of the two
canonical modes. -/
lemma resolveSourceMode_valid (x m : String) (h : resolveSourceMode x "" = m)
    (hne : m ≠ "") : m = "auto" ∨ m = "album" := by
  simp only [resolveSourceMode] at h
  split at h
  · exact Or.inl h.symm
  · split at h
    · exact Or.inr h.symm
    · exact absurd h.symm hne

/-- A mode that resolves to the empty fallback resolves to any fallback. -/
lemma resolveSourceMode_fallback (x d : String) (h : resolveSourceMode x "" = "") :
    resolveSourceMode x d = d := by
  simp only [resolveSourceMode] at h ⊢
  split at h
  · simp at h
  · rename_i hb1
    split at h
    · simp at h
    · rename_i hb2
      rw [if_neg hb1, if_neg hb2]

/-- The canonical modes resolve to themselves against any fallback. -/
lemma resolveSourceMode_canonical (d : String) :
    resolveSourceMode "auto" d = "auto" ∧ resolveSourceMode "album" d = "album" :=
  ⟨rfl, rfl⟩

/-- With no query parameters present, the query mode is empty. -/
lemma queryModeOf_none (params : String → Option String)
    (h : ∀ q, params q = none) : queryModeOf params = "" := by
  simp only [queryModeOf, h, jsOrOption, textOrDefault]

/-- Reading a key straight after writing it returns the written value. -/
lemma storeGet_storeSet (st : Store) (key value : String) :
    storeGet (storeSet st key value) key = some value := by
  simp [storeGet, storeSet, List.find?]

/-- C9: a valid mode supplied through a query parameter is returned,
persisted under the storage key, and read back by a later call with no
query parameter; with no query parameter and a missing-or-invalid stored
value, the caller's configured default is returned and the store is
untouched. -/
theorem getInitialSourceMode_round_trip :
    (∀ (params : String → Option String) (st : Store) (key dflt m : String),
      queryModeOf params ≠ "" →
      resolveSourceMode (queryModeOf params) "" = m → m ≠ "" →
      (getInitialSourceMode params st key dflt).1 = m ∧
        storeGet (getInitialSourceMode params st key dflt).2 key = some m ∧
        ∀ (noParams : String → Option String) (dflt2 : String),
          (∀ q, noParams q = none) →
          (getInitialSourceMode noParams
            (getInitialSourceMode params st key dflt).2 key dflt2).1 = m) ∧
    (∀ (noParams : String → Option String) (st : Store) (key dflt : String),
      (∀ q, noParams q = none) →
      resolveSourceMode (safeLocalStorageGet st key) "" = "" →
      getInitialSourceMode noParams st key dflt = (dflt, st)) := by
  constructor
  · intro params st key dflt m hq hres hne
    have hfirst : getInitialSourceMode params st key dflt = (m, storeSet st key m) := by
      simp only [getInitialSourceMode]
      rw [if_pos hq, hres, if_pos hne]
    refine ⟨by rw [hfirst], by rw [hfirst]; exact storeGet_storeSet st key m, ?_⟩
    intro noParams dflt2 hnone
    have hqm := queryModeOf_none noParams hnone
    have hstored : safeLocalStorageGet (storeSet st key m) key = m := by
      simp only [safeLocalStorageGet]
      rw [storeGet_storeSet]
      rcases resolveSourceMode_valid _ _ hres hne with h | h <;> subst h <;> rfl
    rw [hfirst]
    simp only [getInitialSourceMode]
    rw [hqm, if_neg (by simp), hstored]
    rcases resolveSourceMode_valid _ _ hres hne with h | h <;> subst h
    · exact (resolveSourceMode_canonical dflt2).1
    · exact (resolveSourceMode_canonical dflt2).2
  · intro noParams st key dflt hnone hinvalid
    have hqm := queryModeOf_none noParams hnone
    simp only [getInitialSourceMode]
    rw [hqm, if_neg (by simp), resolveSourceMode_fallback _ _ hinvalid]

/-- C9 witness: `?galleryMode=Album` yields and persists mode `album`,
and a later call with no parameters reads `album` back; on an empty
store without parameters the default `auto` is returned. -/
theorem getInitialSourceMode_round_trip_witness :
    (getInitialSourceMode w9Params [] "photo-gallery-mode:g" "auto").1 = "album" ∧
      (getInitialSourceMode (fun _ => none)
        (getInitialSourceMode w9Params [] "photo-gallery-mode:g" "auto").2
        "photo-gallery-mode:g" "auto").1 = "album" ∧
      getInitialSourceMode (fun _ => none) [] "photo-gallery-mode:g" "auto" =
        ("auto", []) := by
  have h := getInitialSourceMode_round_trip
  have h1 := h.1 w9Params [] "photo-gallery-mode:g" "auto" "album" (by decide) (by decide)
    (by decide)
  exact ⟨h1.1, h1.2.2 (fun _ => none) "auto" (fun q => rfl),
    h.2 (fun _ => none) [] "photo-gallery-mode:g" "auto" (fun q => rfl) (by decide)⟩

/-- A chain that ends within the fuel is collected completely. -/
lemma collectAux_of_chainEnds (fetch : String → Except String PageData)
    {p : PageData} {links : List String} {items : List RawItem}
    (h : ChainEnds fetch p links items) :
    ∀ fuel, links.length ≤ fuel → collectAux fetch p fuel = (.ok items, links) := by
  induction h with
  | last p hnone =>
      intro fuel _
      rw [collectAux, hnone]
  | step p link q links items hl hf htail ih =>
      intro fuel hfuel
      match fuel with
      | 0 => simp at hfuel
      | fuelLeft + 1 =>
          rw [collectAux, hl]
          dsimp only
          rw [hf]
          dsimp only
          rw [ih fuelLeft (by simpa using hfuel)]
          rfl

/-- A chain that still has a continuation link after exactly the fuel's
worth of followed links throws the pagination error without fetching
further. -/
lemma collectAux_of_reaches (fetch : String → Except String PageData)
    {p : PageData} {links : List String} {q : PageData}
    (h : Reaches fetch p links q) {link2 : String}
    (hq : (extractItemsPage q).2 = some link2) :
    collectAux fetch p links.length = (.error paginationErrorMessage, links) := by
  induction h with
  | refl p =>
      rw [collectAux, hq]
      rfl
  | step p link q r links hl hf htail ih =>
      rw [List.length_cons, collectAux, hl]
      dsimp only
      rw [hf]
      dsimp only
      rw [ih hq]
      rfl

/-- C5: `collectPagedItems` (which is total by construction — the fuel
mirrors the source's page counter) returns the concatenation of the
pages' item arrays in page order whenever the `nextLink` chain ends
within 100 links, and fails with the pagination error, having fetched
exactly the first 100 links, whenever a 101st link is present. -/
theorem collectPagedItems_pagination_cap (fetch : String → Except String PageData)
    (p : PageData) :
    (∀ (links : List String) (items : List RawItem),
      ChainEnds fetch p links items → links.length ≤ 100 →
      collectPagedItems fetch p = (.ok items, links)) ∧
    (∀ (links : List String) (q : PageData) (link : String),
      Reaches fetch p links q → links.length = 100 →
      (extractItemsPage q).2 = some link →
      collectPagedItems fetch p = (.error paginationErrorMessage, links)) := by
  constructor
  · intro links items hchain hlen
    exact collectAux_of_chainEnds fetch hchain 100 hlen
  · intro links q link hreach hlen hq
    have := collectAux_of_reaches fetch hreach hq
    rw [hlen] at this
    exact this

/-- C5 witness: three pages of two items each, linked by two pagination
links, collect to the six items in page order. -/
theorem collectPagedItems_pagination_cap_witness :
    collectPagedItems w5Fetch w5Page1 =
      (.ok [imageItem (some "a.jpg") none "ua", imageItem (some "b.jpg") none "ub",
            imageItem (some "c.jpg") none "uc", imageItem (some "d.jpg") none "ud",
            imageItem (some "e.jpg") none "ue", imageItem (some "f.jpg") none "uf"],
        ["l1", "l2"]) := by
  have h3 : ChainEnds w5Fetch w5Page3 []
      [imageItem (some "e.jpg") none "ue", imageItem (some "f.jpg") none "uf"] :=
    ChainEnds.last w5Page3 (by decide)
  have h2 : ChainEnds w5Fetch w5Page2 ["l2"]
      [imageItem (some "c.jpg") none "uc", imageItem (some "d.jpg") none "ud",
       imageItem (some "e.jpg") none "ue", imageItem (some "f.jpg") none "uf"] :=
    ChainEnds.step w5Page2 "l2" w5Page3 [] _ (by decide) rfl h3
  have h1 : ChainEnds w5Fetch w5Page1 ["l1", "l2"]
      [imageItem (some "a.jpg") none "ua", imageItem (some "b.jpg") none "ub",
       imageItem (some "c.jpg") none "uc", imageItem (some "d.jpg") none "ud",
       imageItem (some "e.jpg") none "ue", imageItem (some "f.jpg") none "uf"] :=
    ChainEnds.step w5Page1 "l1" w5Page2 ["l2"] _ (by decide) rfl h2
  exact (collectPagedItems_pagination_cap w5Fetch w5Page1).1 ["l1", "l2"] _ h1 (by decide)

/-! Order lemmas for the natural-sort comparator. -/

lemma natCmp_eq_iff (a b : Nat) : natCmp a b = .eq ↔ a = b := by
  unfold natCmp
  split_ifs <;> simp <;> omega

lemma natCmp_lt_iff (a b : Nat) : natCmp a b = .lt ↔ a < b := by
  unfold natCmp
  split_ifs <;> simp <;> omega

lemma natCmp_gt_iff (a b : Nat) : natCmp a b = .gt ↔ b < a := by
  unfold natCmp
  split_ifs <;> simp <;> omega

lemma pairCmp_eq_iff (x y : Nat × Nat) : pairCmp x y = .eq ↔ x = y := by
  unfold pairCmp
  cases hc : natCmp x.1 y.1
  · rw [natCmp_lt_iff] at hc
    simp [Prod.ext_iff]
    omega
  · rw [natCmp_eq_iff] at hc
    rw [natCmp_eq_iff]
    simp [Prod.ext_iff, hc]
  · rw [natCmp_gt_iff] at hc
    simp [Prod.ext_iff]
    omega

lemma pairCmp_lt_iff (x y : Nat × Nat) :
    pairCmp x y = .lt ↔ (x.1 < y.1 ∨ (x.1 = y.1 ∧ x.2 < y.2)) := by
  unfold pairCmp
  cases hc : natCmp x.1 y.1
  · rw [natCmp_lt_iff] at hc
    simp
    omega
  · rw [natCmp_eq_iff] at hc
    rw [natCmp_lt_iff]
    omega
  · rw [natCmp_gt_iff] at hc
    simp
    omega

lemma pairCmp_gt_iff (x y : Nat × Nat) :
    pairCmp x y = .gt ↔ (y.1 < x.1 ∨ (x.1 = y.1 ∧ y.2 < x.2)) := by
  unfold pairCmp
  cases hc : natCmp x.1 y.1
  · rw [natCmp_lt_iff] at hc
    simp
    omega
  · rw [natCmp_eq_iff] at hc
    rw [natCmp_gt_iff]
    omega
  · rw [natCmp_gt_iff] at hc
    simp
    omega

lemma pairCmp_ne_gt_iff (x y : Nat × Nat) :
    pairCmp x y ≠ .gt ↔ (x.1 < y.1 ∨ (x.1 = y.1 ∧ x.2 ≤ y.2)) := by
  rw [Ne, pairCmp_gt_iff]
  omega

lemma listCmp_nil_ne_gt (b : List (Nat × Nat)) : listCmp [] b ≠ .gt := by
  cases b <;> simp [listCmp]

lemma listCmp_ne_gt_trans :
    ∀ a b c, listCmp a b ≠ .gt → listCmp b c ≠ .gt → listCmp a c ≠ .gt
  | [], _, c, _, _ => listCmp_nil_ne_gt c
  | _ :: _, [], _, h1, _ => by simp [listCmp] at h1
  | _ :: _, _ :: _, [], _, h2 => by simp [listCmp] at h2
  | x :: xs, y :: ys, z :: zs, h1, h2 => by
      simp only [listCmp] at h1 h2 ⊢
      cases hxy : pairCmp x y
      · cases hyz : pairCmp y z
        · have hxz : pairCmp x z = .lt := by
            rw [pairCmp_lt_iff] at hxy hyz ⊢
            omega
          rw [hxz]
          simp
        · have hy := (pairCmp_eq_iff y z).mp hyz
          rw [← hy, hxy]
          simp
        · rw [hyz] at h2
          exact absurd rfl h2
      · rw [hxy] at h1
        have hx := (pairCmp_eq_iff x y).mp hxy
        rw [hx]
        cases hyz : pairCmp y z
        · simp
        · rw [hyz] at h2
          exact listCmp_ne_gt_trans xs ys zs h1 h2
        · rw [hyz] at h2
          exact absurd rfl h2
      · rw [hxy] at h1
        exact absurd rfl h1

lemma listCmp_total : ∀ a b, listCmp a b ≠ .gt ∨ listCmp b a ≠ .gt
  | [], b => Or.inl (listCmp_nil_ne_gt b)
  | _ :: _, [] => Or.inr (listCmp_nil_ne_gt _)
  | x :: xs, y :: ys => by
      simp only [listCmp]
      cases hxy : pairCmp x y
      · left
        simp
      · have hx := (pairCmp_eq_iff x y).mp hxy
        subst hx
        rw [hxy]
        rcases listCmp_total xs ys with h | h
        · exact Or.inl h
        · exact Or.inr h
      · right
        have hyx : pairCmp y x = .lt := by
          rw [pairCmp_gt_iff] at hxy
          rw [pairCmp_lt_iff]
          omega
        rw [hyx]
        simp

lemma itemLe_total (a b : RawItem) : itemLe a b = true ∨ itemLe b a = true := by
  simp only [itemLe, localeNaturalCmp, decide_eq_true_eq]
  exact listCmp_total (natKey (sortName a)) (natKey (sortName b))

lemma itemLe_trans (a b c : RawItem) (h1 : itemLe a b = true) (h2 : itemLe b c = true) :
    itemLe a c = true := by
  simp only [itemLe, localeNaturalCmp, decide_eq_true_eq] at h1 h2 ⊢
  exact listCmp_ne_gt_trans _ _ _ h1 h2

/-! Stable sort lemmas. -/

lemma sortInsert_perm (le : α → α → Bool) (x : α) (l : List α) :
    List.Perm (sortInsert le x l) (x :: l) := by
  induction l with
  | nil => exact List.Perm.refl _
  | cons y ys ih =>
      simp only [sortInsert]
      split
      · exact List.Perm.refl _
      · exact (ih.cons y).trans (List.Perm.swap x y ys)

lemma stableSort_perm (le : α → α → Bool) (l : List α) :
    List.Perm (stableSort le l) l := by
  induction l with
  | nil => exact List.Perm.refl _
  | cons x xs ih => exact (sortInsert_perm le x (stableSort le xs)).trans (ih.cons x)

lemma mem_sortInsert (le : α → α → Bool) (x z : α) (l : List α) :
    z ∈ sortInsert le x l ↔ z = x ∨ z ∈ l := by
  rw [(sortInsert_perm le x l).mem_iff]
  simp

lemma sorted_sortInsert (le : α → α → Bool)
    (htotal : ∀ a b, le a b = true ∨ le b a = true)
    (htrans : ∀ a b c, le a b = true → le b c = true → le a c = true)
    (x : α) (l : List α) (hl : l.Pairwise (fun a b => le a b = true)) :
    (sortInsert le x l).Pairwise (fun a b => le a b = true) := by
  induction l with
  | nil => simp [sortInsert]
  | cons y ys ih =>
      rw [List.pairwise_cons] at hl
      simp only [sortInsert]
      split
      · rename_i hxy
        rw [List.pairwise_cons]
        refine ⟨fun z hz => ?_, List.Pairwise.cons hl.1 hl.2⟩
        rcases List.mem_cons.mp hz with hz | hz
        · rw [hz]
          exact hxy
        · exact htrans x y z hxy (hl.1 z hz)
      · rename_i hxy
        have hyx : le y x = true := by
          rcases htotal x y with h | h
          · exact absurd h hxy
          · exact h
        rw [List.pairwise_cons]
        refine ⟨fun z hz => ?_, ih hl.2⟩
        rw [mem_sortInsert] at hz
        rcases hz with hz | hz
        · rw [hz]
          exact hyx
        · exact hl.1 z hz

lemma sorted_stableSort (le : α → α → Bool)
    (htotal : ∀ a b, le a b = true ∨ le b a = true)
    (htrans : ∀ a b c, le a b = true → le b c = true → le a c = true)
    (l : List α) : (stableSort le l).Pairwise (fun a b => le a b = true) := by
  induction l with
  | nil => simp [stableSort]
  | cons x xs ih => exact sorted_sortInsert le htotal htrans x (stableSort le xs) ih

/-! The filter/dedup loop characterised through `keptItems`. -/

/-- The loop appends exactly the records of the kept items, with fallback
indices counting on from the accumulated photo count. -/
lemma oneDriveLoop_eq (description : String) :
    ∀ (l : List RawItem) (photos : List PhotoRecord) (seen : List String),
      oneDriveLoop description l photos seen =
        photos ++ photosOfKept description photos.length (keptItems seen l)
  | [], photos, seen => by
      simp [oneDriveLoop, keptItems, photosOfKept]
  | item :: rest, photos, seen => by
      simp only [oneDriveLoop, keptItems]
      cases himg : isImageItem item
      · simp only [himg, Bool.not_false, if_true, Bool.false_and, Bool.false_eq_true,
          if_false]
        exact oneDriveLoop_eq description rest photos seen
      · simp only [himg, Bool.not_true, Bool.true_and, Bool.false_eq_true, if_false]
        by_cases hurl : itemDownloadUrl item = ""
        · rw [if_pos hurl]
          simp only [ne_eq, hurl, not_true_eq_false, decide_False, Bool.false_and,
            Bool.false_eq_true, if_false]
          exact oneDriveLoop_eq description rest photos seen
        · rw [if_neg hurl]
          simp only [ne_eq, hurl, not_false_eq_true, decide_True, Bool.true_and]
          cases hseen : seen.contains (uniqueKeyOf item)
          · simp only [hseen, Bool.false_eq_true, if_false, Bool.not_false, if_true]
            rw [oneDriveLoop_eq description rest
              (photos ++ [mkOneDrivePhoto description (photos.length + 1) item])
              (uniqueKeyOf item :: seen)]
            simp [photosOfKept, List.append_assoc]
          · simp only [hseen, if_true, Bool.not_true, Bool.false_eq_true, if_false]
            exact oneDriveLoop_eq description rest photos seen

/-- Every kept item is an image item with a resolvable URL. -/
lemma keptItems_props :
    ∀ (l : List RawItem) (seen : List String) (it : RawItem),
      it ∈ keptItems seen l → isImageItem it = true ∧ itemDownloadUrl it ≠ ""
  | [], _, _, h => by simp [keptItems] at h
  | item :: rest, seen, it, h => by
      simp only [keptItems] at h
      split at h
      · rename_i hcond
        rcases List.mem_cons.mp h with h | h
        · subst h
          simp only [Bool.and_eq_true, decide_eq_true_eq] at hcond
          exact ⟨hcond.1.1, hcond.1.2⟩
        · exact keptItems_props rest _ it h
      · exact keptItems_props rest seen it h

/-- A kept item comes from the input list. -/
lemma keptItems_sublist :
    ∀ (l : List RawItem) (seen : List String), List.Sublist (keptItems seen l) l
  | [], _ => by simp [keptItems]
  | item :: rest, seen => by
      simp only [keptItems]
      split
      · exact List.Sublist.cons₂ item (keptItems_sublist rest _)
      · exact List.Sublist.cons item (keptItems_sublist rest seen)

/-- The keys of the kept items are distinct and disjoint from `seen`. -/
lemma keptItems_keys :
    ∀ (l : List RawItem) (seen : List String),
      ((keptItems seen l).map uniqueKeyOf).Nodup ∧
        ∀ k ∈ (keptItems seen l).map uniqueKeyOf, k ∉ seen
  | [], _ => by simp [keptItems]
  | item :: rest, seen => by
      simp only [keptItems]
      split
      · rename_i hcond
        simp only [Bool.and_eq_true, decide_eq_true_eq, Bool.not_eq_true'] at hcond
        have hnotseen : uniqueKeyOf item ∉ seen := by
          have := hcond.2
          simpa using this
        have ih := keptItems_keys rest (uniqueKeyOf item :: seen)
        refine ⟨?_, ?_⟩
        · rw [List.map_cons, List.nodup_cons]
          refine ⟨fun hmem => ?_, ih.1⟩
          exact (ih.2 _ hmem) (List.mem_cons_self _ _)
        · intro k hk
          rw [List.map_cons, List.mem_cons] at hk
          rcases hk with hk | hk
          · rw [hk]
            exact hnotseen
          · exact fun hmem => (ih.2 k hk) (List.mem_cons_of_mem _ hmem)
      · have ih := keptItems_keys rest seen
        exact ⟨ih.1, ih.2⟩

/-- An eligible item's key is either already seen or realised by some
kept item. -/
lemma keptItems_covers :
    ∀ (l : List RawItem) (seen : List String) (it : RawItem),
      it ∈ l → isImageItem it = true → itemDownloadUrl it ≠ "" →
      uniqueKeyOf it ∈ seen ∨
        ∃ j ∈ keptItems seen l, uniqueKeyOf j = uniqueKeyOf it
  | [], _, _, h, _, _ => by simp at h
  | item :: rest, seen, it, h, himg, hurl => by
      simp only [keptItems]
      rcases List.mem_cons.mp h with h | h
      · subst h
        split
        · exact Or.inr ⟨it, List.mem_cons_self it _, rfl⟩
        · rename_i hcond
          simp [himg, hurl] at hcond
          exact Or.inl hcond
      · split
        · rcases keptItems_covers rest (uniqueKeyOf item :: seen) it h himg hurl with
            hc | ⟨j, hj, hkey⟩
          · rcases List.mem_cons.mp hc with hc | hc
            · exact Or.inr ⟨item, List.mem_cons_self item _, hc.symm⟩
            · exact Or.inl hc
          · exact Or.inr ⟨j, List.mem_cons_of_mem item hj, hkey⟩
        · rcases keptItems_covers rest seen it h himg hurl with hc | ⟨j, hj, hkey⟩
          · exact Or.inl hc
          · exact Or.inr ⟨j, hj, hkey⟩

/-- Every record of `photosOfKept` is the record of some kept item. -/
lemma photosOfKept_mem (description : String) :
    ∀ (ks : List RawItem) (base : Nat) (p : PhotoRecord),
      p ∈ photosOfKept description base ks →
      ∃ it ∈ ks, ∃ idx, p = mkOneDrivePhoto description idx it
  | [], _, _, h => by simp [photosOfKept] at h
  | item :: rest, base, p, h => by
      simp only [photosOfKept] at h
      rcases List.mem_cons.mp h with h | h
      · exact ⟨item, List.mem_cons_self item rest, base + 1, h⟩
      · rcases photosOfKept_mem description rest (base + 1) p h with ⟨it, hit, idx, hp⟩
        exact ⟨it, List.mem_cons_of_mem item hit, idx, hp⟩

/-! Non-emptiness helpers. -/

lemma ne_empty_of_length_pos (s : String) (h : s.length > 0) : s ≠ "" := by
  intro h0
  rw [h0] at h
  simp at h

lemma textOrDefault_eq_or (v : Option String) (fb : String) :
    textOrDefault v fb = fb ∨
      (textOrDefault v fb ≠ "" ∧ ∀ fb2, textOrDefault v fb2 = textOrDefault v fb) := by
  cases v with
  | none => exact Or.inl rfl
  | some s =>
      simp only [textOrDefault]
      by_cases h : (jsTrim s).length > 0
      · rw [if_pos h]
        exact Or.inr ⟨ne_empty_of_length_pos _ h, fun fb2 => by rw [if_pos h]⟩
      · rw [if_neg h]
        exact Or.inl rfl

lemma textOrDefault_ne_empty (v : Option String) (fb : String) (hfb : fb ≠ "") :
    textOrDefault v fb ≠ "" := by
  rcases textOrDefault_eq_or v fb with h | h
  · rw [h]
    exact hfb
  · exact h.1

lemma photoLabel_ne_empty (k : Nat) : ("Photo " ++ toString k : String) ≠ "" := by
  intro h
  have hl := congrArg String.length h
  rw [String.length_append] at hl
  have h6 : ("Photo " : String).length = 6 := rfl
  have h0 : ("" : String).length = 0 := rfl
  omega

lemma capturedOn_ne_empty (d : String) : ("Captured on " ++ d ++ "." : String) ≠ "" := by
  intro h
  have hl := congrArg String.length h
  rw [String.length_append, String.length_append] at hl
  have h12 : ("Captured on " : String).length = 12 := rfl
  have h0 : ("" : String).length = 0 := rfl
  omega

lemma derivePhotoDescription_ne_empty (t f : String) :
    derivePhotoDescription t f ≠ "" := by
  simp only [derivePhotoDescription]
  have hfb : textOrDefaultS f "Travel memory." ≠ "" :=
    textOrDefault_ne_empty (some f) "Travel memory." (by decide)
  split
  · exact hfb
  · split
    · exact capturedOn_ne_empty _
    · exact hfb

lemma derivePhotoTitle_any_index (n : Option String)
    (h1 : derivePhotoTitle n 1 ≠ "") (k : Nat) : derivePhotoTitle n k ≠ "" := by
  cases n with
  | none => exact photoLabel_ne_empty k
  | some s =>
      simp only [derivePhotoTitle] at h1 ⊢
      by_cases hb : (jsTrim s).length = 0
      · rw [if_pos hb]
        exact photoLabel_ne_empty k
      · rw [if_neg hb] at h1 ⊢
        exact h1

/-- C3 counterexample: the cloud-share item named `.jpg` (only an
extension) is mapped to a PhotoRecord whose title is the empty string. -/
theorem mapOneDrive_title_empty_cex :
    (mapOneDriveItemsToPhotos [w3DotItem] "d").map PhotoRecord.title = [""] ∧
      (mapOneDriveItemsToPhotos [w3DotItem] "d").map PhotoRecord.src =
        ["https://x/y.jpg"] := by
  decide

/-- C3 amended: every mapped PhotoRecord has a non-empty `src` and a
non-empty `description`, unconditionally; the `title` is also non-empty
provided no input name's derived label collapses to the empty string
(which happens only for names consisting solely of an extension and/or
separator runs, such as `.jpg`). -/
theorem photo_fields_nonempty_amended :
    (∀ (items : List RawItem) (description : String),
      (∀ p ∈ mapOneDriveItemsToPhotos items description,
        p.src ≠ "" ∧ p.description ≠ "") ∧
      ((∀ it ∈ items, derivePhotoTitle (itemName it) 1 ≠ "") →
        ∀ p ∈ mapOneDriveItemsToPhotos items description, p.title ≠ "")) ∧
    (∀ (data : ManifestData) (description : String),
      (∀ p ∈ parseApiManifest data description,
        p.src ≠ "" ∧ p.description ≠ "") ∧
      ((∀ row ∈ manifestRows data,
          textOrDefault (rowTitle row) (derivePhotoTitle (rowName row) 1) ≠ "") →
        ∀ p ∈ parseApiManifest data description, p.title ≠ "")) ∧
    (∀ (data : ManifestData) (description : String),
      (∀ p ∈ parseLocalManifest data description,
        p.src ≠ "" ∧ p.description ≠ "") ∧
      ((∀ row ∈ manifestRows data,
          textOrDefault (rowTitle row) (derivePhotoTitle (rowName row) 1) ≠ "") →
        ∀ p ∈ parseLocalManifest data description, p.title ≠ "")) := by
  have hrowTitle : ∀ (row : RawRow) (i : Nat),
      textOrDefault (rowTitle row) (derivePhotoTitle (rowName row) 1) ≠ "" →
      textOrDefault (rowTitle row) (derivePhotoTitle (rowName row) (i + 1)) ≠ "" := by
    intro row i h1
    rcases textOrDefault_eq_or (rowTitle row) (derivePhotoTitle (rowName row) 1) with
      heq1 | ⟨hne1, hall1⟩
    · rw [heq1] at h1
      rcases textOrDefault_eq_or (rowTitle row)
          (derivePhotoTitle (rowName row) (i + 1)) with heq | ⟨hne, _⟩
      · rw [heq]
        exact derivePhotoTitle_any_index _ h1 (i + 1)
      · exact hne
    · rw [hall1 (derivePhotoTitle (rowName row) (i + 1))]
      exact hne1
  refine ⟨?_, ?_, ?_⟩
  · intro items description
    have hchar : ∀ p ∈ mapOneDriveItemsToPhotos items description,
        ∃ it, it ∈ keptItems [] (stableSort itemLe items) ∧ it ∈ items ∧
          ∃ idx, p = mkOneDrivePhoto description idx it := by
      intro p hp
      rw [show mapOneDriveItemsToPhotos items description =
          photosOfKept description 0 (keptOf items) by
        simpa [mapOneDriveItemsToPhotos, keptOf] using
          oneDriveLoop_eq description (stableSort itemLe items) [] []] at hp
      rcases photosOfKept_mem description (keptOf items) 0 p hp with ⟨it, hit, idx, rfl⟩
      exact ⟨it, hit,
        ((stableSort_perm itemLe items).mem_iff).mp
          ((keptItems_sublist (stableSort itemLe items) []).subset hit), idx, rfl⟩
    constructor
    · intro p hp
      rcases hchar p hp with ⟨it, hkept, _, idx, rfl⟩
      exact ⟨(keptItems_props (stableSort itemLe items) [] it hkept).2,
        derivePhotoDescription_ne_empty _ _⟩
    · intro hnames p hp
      rcases hchar p hp with ⟨it, _, hmem, idx, rfl⟩
      exact derivePhotoTitle_any_index _ (hnames it hmem) idx
  · intro data description
    constructor
    · intro p hp
      rcases List.mem_filter.mp hp with ⟨hm, hsrc⟩
      rcases List.mem_map.mp hm with ⟨⟨i, row⟩, hpair, rfl⟩
      simp only [decide_eq_true_eq] at hsrc
      exact ⟨ne_empty_of_length_pos _ hsrc,
        textOrDefault_ne_empty _ _ (derivePhotoDescription_ne_empty _ _)⟩
    · intro hrows p hp
      rcases List.mem_filter.mp hp with ⟨hm, hsrc⟩
      rcases List.mem_map.mp hm with ⟨⟨i, row⟩, hpair, rfl⟩
      have hrow : row ∈ manifestRows data := by
        have h1 : row ∈ (manifestRows data).filter isObjRow := by
          have := List.mem_map_of_mem Prod.snd hpair
          rwa [List.enum_map_snd] at this
        exact (List.mem_filter.mp h1).1
      exact hrowTitle row i (hrows row hrow)
  · intro data description
    constructor
    · intro p hp
      rcases List.mem_filter.mp hp with ⟨hm, hsrc⟩
      rcases List.mem_map.mp hm with ⟨⟨i, row⟩, hpair, rfl⟩
      simp only [decide_eq_true_eq] at hsrc
      exact ⟨ne_empty_of_length_pos _ hsrc,
        textOrDefault_ne_empty _ _ (derivePhotoDescription_ne_empty _ _)⟩
    · intro hrows p hp
      rcases List.mem_filter.mp hp with ⟨hm, hsrc⟩
      rcases List.mem_map.mp hm with ⟨⟨i, row⟩, hpair, rfl⟩
      have hrow : row ∈ manifestRows data := by
        have h1 : row ∈ (manifestRows data).filter isObjRow := by
          have := List.mem_map_of_mem Prod.snd hpair
          rwa [List.enum_map_snd] at this
        exact (List.mem_filter.mp h1).1
      exact hrowTitle row i (hrows row hrow)

/-- C3 amended witness: a concrete named image item maps to a record
with all three fields non-empty (`src` and `description` from the
unconditional part, `title` from the no-collapsing-name part). -/
theorem photo_fields_nonempty_amended_witness :
    w3Photo ∈ mapOneDriveItemsToPhotos [w3Item] "Memories." ∧
      w3Photo.src ≠ "" ∧ w3Photo.description ≠ "" ∧ w3Photo.title ≠ "" := by
  have h := photo_fields_nonempty_amended.1 [w3Item] "Memories."
  have hmem : w3Photo ∈ mapOneDriveItemsToPhotos [w3Item] "Memories." := by decide
  exact ⟨hmem, (h.1 _ hmem).1, (h.1 _ hmem).2, h.2 (by decide) _ hmem⟩

/-- C6: the records emitted by `mapOneDriveItemsToPhotos` follow the
kept items in natural-comparator order (the kept list is pairwise
nondecreasing under the modelled `localeCompare(..., { numeric: true,
sensitivity: 'base' })`); concretely, `img10.jpg`, `img2.jpg`,
`img1.jpg` come back as `img1, img2, img10`. -/
theorem mapOneDrive_natural_order :
    (∀ (items : List RawItem) (description : String),
      mapOneDriveItemsToPhotos items description =
        photosOfKept description 0 (keptOf items) ∧
        (keptOf items).Pairwise (fun a b => itemLe a b = true)) ∧
    (mapOneDriveItemsToPhotos
        [imageItem (some "img10.jpg") none "u10",
         imageItem (some "img2.jpg") none "u2",
         imageItem (some "img1.jpg") none "u1"] "d").map PhotoRecord.title =
      ["img1", "img2", "img10"] := by
  constructor
  · intro items description
    constructor
    · simpa [mapOneDriveItemsToPhotos, keptOf] using
        oneDriveLoop_eq description (stableSort itemLe items) [] []
    · exact (sorted_stableSort itemLe itemLe_total itemLe_trans items).sublist
        (keptItems_sublist (stableSort itemLe items) [])
  · decide

/-- C7: each distinct deduplication key (the item id, or the resolved
URL when the id is absent) of an eligible input item is realised by
exactly one kept item, hence exactly one PhotoRecord. -/
theorem mapOneDrive_dedup (items : List RawItem) (description : String)
    (it : RawItem) (hmem : it ∈ items) (himg : isImageItem it = true)
    (hurl : itemDownloadUrl it ≠ "") :
    ((keptOf items).map uniqueKeyOf).count (uniqueKeyOf it) = 1 ∧
      mapOneDriveItemsToPhotos items description =
        photosOfKept description 0 (keptOf items) := by
  constructor
  · simp only [keptOf]
    have hnodup := (keptItems_keys (stableSort itemLe items) []).1
    have hmem2 : it ∈ stableSort itemLe items :=
      ((stableSort_perm itemLe items).mem_iff).mpr hmem
    rcases keptItems_covers (stableSort itemLe items) [] it hmem2 himg hurl with
      hc | ⟨j, hj, hkey⟩
    · simp at hc
    · have hkmem : uniqueKeyOf it ∈
          (keptItems [] (stableSort itemLe items)).map uniqueKeyOf := by
        rw [← hkey]
        exact List.mem_map_of_mem uniqueKeyOf hj
      have hle := List.nodup_iff_count_le_one.mp hnodup (uniqueKeyOf it)
      have hpos := List.count_pos_iff.mpr hkmem
      omega
  · simpa [mapOneDriveItemsToPhotos, keptOf] using
      oneDriveLoop_eq description (stableSort itemLe items) [] []

/-- C7 witness: two image items sharing the id `X` yield one record. -/
theorem mapOneDrive_dedup_witness :
    ((keptOf [w7ItemA, w7ItemB]).map uniqueKeyOf).count (uniqueKeyOf w7ItemA) = 1 ∧
      (mapOneDriveItemsToPhotos [w7ItemA, w7ItemB] "d").length = 1 :=
  ⟨(mapOneDrive_dedup [w7ItemA, w7ItemB] "d" w7ItemA (by decide) (by decide)
      (by decide)).1, by decide⟩

/-! The resolution pipeline characterised through `resolveChain`. -/

lemma localStage_eq (cfg : LoadConfig) (w : FetchWorld) (d : String)
    (signals : List String) (trace : List Source) :
    localStage cfg w d signals trace =
      resolveChain ((if hasConfiguredLocalPath cfg.localJsonPath then
          [Source.localManifest] else []).map (fun s => (s, attemptOf w d s)))
        signals trace := by
  by_cases h : hasConfiguredLocalPath cfg.localJsonPath = true
  · simp only [localStage, h, if_true, List.map_cons, List.map_nil]
    cases hph : (fromLocalAttempt w.localFetch d).photos <;>
      simp [resolveChain, attemptOf, hph]
  · simp [localStage, h, resolveChain]

lemma shareStage_eq (cfg : LoadConfig) (w : FetchWorld) (d : String)
    (signals : List String) (trace : List Source) :
    shareStage cfg w d signals trace =
      resolveChain (((if isConfiguredShareLink cfg.shareLink then
            [Source.oneDrive] else []) ++
          (if hasConfiguredLocalPath cfg.localJsonPath then
            [Source.localManifest] else [])).map (fun s => (s, attemptOf w d s)))
        signals trace := by
  by_cases h : isConfiguredShareLink cfg.shareLink = true
  · simp only [shareStage, h, if_true, List.cons_append, List.nil_append,
      List.map_cons]
    cases hph : (fromOneDriveAttempt w.oneDriveItems d).photos
    · rw [localStage_eq]
      simp [resolveChain, attemptOf, hph]
    · simp [resolveChain, attemptOf, hph]
  · rw [show shareStage cfg w d signals trace = localStage cfg w d signals trace from by
      simp [shareStage, h]]
    rw [localStage_eq]
    simp [h, attemptOf]

lemma loadBestSource_eq (cfg : LoadConfig) (w : FetchWorld) :
    loadBestSource cfg w =
      resolveChain ((configuredSources cfg).map
        (fun s => (s, attemptOf w (descOf cfg) s))) [] [] := by
  simp only [configuredSources]
  by_cases h : isConfiguredApiEndpoint cfg.apiEndpoint = true
  · simp only [loadBestSource, h, if_true, List.cons_append, List.nil_append,
      List.map_cons]
    cases hph : (fromApiAttempt w.apiFetch (descOf cfg)).photos
    · rw [shareStage_eq]
      simp [resolveChain, attemptOf, hph, List.map_append]
    · simp [resolveChain, attemptOf, hph]
  · rw [show loadBestSource cfg w = shareStage cfg w (descOf cfg) [] [] from by
      simp [loadBestSource, h]]
    rw [shareStage_eq]
    simp [h, attemptOf, List.map_append]

lemma resolveChain_firstWin :
    ∀ (pre : List (Source × Attempt)) (s : Source) (a : Attempt)
      (rest : List (Source × Attempt)) (signals : List String)
      (trace : List Source) (ph : List PhotoRecord),
      (∀ p ∈ pre, p.2.photos = none) → a.photos = some ph →
      resolveChain (pre ++ (s, a) :: rest) signals trace =
        (.gallery ph, trace ++ pre.map Prod.fst ++ [s])
  | [], s, a, rest, signals, trace, ph, _, ha => by
      simp only [List.nil_append, resolveChain, ha, List.map_nil, List.append_nil]
  | (t, b) :: pre, s, a, rest, signals, trace, ph, hpre, ha => by
      have hb : b.photos = none := hpre (t, b) (List.mem_cons_self _ _)
      simp only [List.cons_append, resolveChain, hb, List.append_eq]
      rw [resolveChain_firstWin pre s a rest _ _ ph
        (fun p hp => hpre p (List.mem_cons_of_mem _ hp)) ha]
      simp [List.append_assoc]

lemma resolveChain_allFail :
    ∀ (attempts : List (Source × Attempt)) (signals : List String)
      (trace : List Source),
      (∀ p ∈ attempts, p.2.photos = none) →
      resolveChain attempts signals trace =
        (.fallback (finalPanel
            (signals ++ attempts.map (fun p => textOrDefaultS p.2.state "error"))),
          trace ++ attempts.map Prod.fst)
  | [], signals, trace, _ => by
      simp [resolveChain]
  | (t, b) :: attempts, signals, trace, hall => by
      have hb : b.photos = none := hall (t, b) (List.mem_cons_self _ _)
      simp only [List.cons_append, resolveChain, hb, List.append_eq]
      rw [resolveChain_allFail attempts _ _
        (fun p hp => hall p (List.mem_cons_of_mem _ hp))]
      simp [List.append_assoc]

/-- The classifier only ever returns one of the three state strings. -/
lemma classify_cases (m : String) (k : Nat) :
    classifyLoadState m k = "empty" ∨ classifyLoadState m k = "missing" ∨
      classifyLoadState m k = "error" := by
  simp only [classifyLoadState]
  split
  · exact Or.inl rfl
  · split
    · exact Or.inr (Or.inl rfl)
    · exact Or.inr (Or.inr rfl)

set_option maxHeartbeats 2000000 in
/-- A failed API attempt's recorded state is one of the classified
states. -/
lemma fromApiAttempt_failure (f : HttpFetch) (d : String)
    (h : (fromApiAttempt f d).photos = none) :
    (fromApiAttempt f d).state = "empty" ∨ (fromApiAttempt f d).state = "missing" ∨
      (fromApiAttempt f d).state = "error" := by
  rcases f with msg | ⟨status, data⟩
  · exact classify_cases (textOrDefault msg "Could not connect to gallery API.") 0
  · simp only [fromApiAttempt] at h ⊢
    by_cases hok : httpOk status = true
    · rw [if_pos hok] at h ⊢
      by_cases hemp : (parseApiManifest data d).isEmpty = true
      · rw [if_pos hemp]
        exact classify_cases "Gallery API returned no image entries." status
      · rw [if_neg hemp] at h
        simp at h
    · rw [if_neg hok]
      exact classify_cases ("Gallery API request failed (" ++ toString status ++ ").")
        status

set_option maxHeartbeats 2000000 in
/-- A failed OneDrive attempt's recorded state is one of the classified
states. -/
lemma fromOneDriveAttempt_failure (r : Except String (List RawItem)) (d : String)
    (h : (fromOneDriveAttempt r d).photos = none) :
    (fromOneDriveAttempt r d).state = "empty" ∨
      (fromOneDriveAttempt r d).state = "missing" ∨
      (fromOneDriveAttempt r d).state = "error" := by
  rcases r with err | items
  · exact classify_cases (textOrDefaultS err "Could not connect to OneDrive.") 0
  · simp only [fromOneDriveAttempt] at h ⊢
    by_cases hemp : (mapOneDriveItemsToPhotos items d).isEmpty = true
    · rw [if_pos hemp]
      exact classify_cases "No image files were found in this shared album." 0
    · rw [if_neg hemp] at h
      simp at h

set_option maxHeartbeats 2000000 in
/-- A failed local attempt's recorded state is one of the classified
states. -/
lemma fromLocalAttempt_failure (f : HttpFetch) (d : String)
    (h : (fromLocalAttempt f d).photos = none) :
    (fromLocalAttempt f d).state = "empty" ∨ (fromLocalAttempt f d).state = "missing" ∨
      (fromLocalAttempt f d).state = "error" := by
  rcases f with msg | ⟨status, data⟩
  · exact classify_cases (textOrDefault msg "Could not load local gallery.") 0
  · simp only [fromLocalAttempt] at h ⊢
    by_cases hok : httpOk status = true
    · rw [if_pos hok] at h ⊢
      by_cases hemp : (parseLocalManifest data d).isEmpty = true
      · rw [if_pos hemp]
        exact classify_cases "Local manifest does not contain images." status
      · rw [if_neg hemp] at h
        simp at h
    · rw [if_neg hok]
      exact classify_cases "Local manifest not found." status

/-- A successful API attempt carries a non-empty photo list. -/
lemma fromApiAttempt_success (f : HttpFetch) (d : String) (ph : List PhotoRecord)
    (h : (fromApiAttempt f d).photos = some ph) : ph ≠ [] := by
  rcases f with msg | ⟨status, data⟩
  · simp [fromApiAttempt] at h
  · simp only [fromApiAttempt] at h
    by_cases hok : httpOk status = true
    · rw [if_pos hok] at h
      by_cases hemp : (parseApiManifest data d).isEmpty = true
      · rw [if_pos hemp] at h
        simp at h
      · rw [if_neg hemp] at h
        dsimp only at h
        simp only [Option.some.injEq] at h
        subst h
        exact fun hnil => hemp (by simp [hnil])
    · rw [if_neg hok] at h
      simp at h

/-- A successful OneDrive attempt carries a non-empty photo list. -/
lemma fromOneDriveAttempt_success (r : Except String (List RawItem)) (d : String)
    (ph : List PhotoRecord) (h : (fromOneDriveAttempt r d).photos = some ph) :
    ph ≠ [] := by
  rcases r with err | items
  · simp [fromOneDriveAttempt] at h
  · simp only [fromOneDriveAttempt] at h
    by_cases hemp : (mapOneDriveItemsToPhotos items d).isEmpty = true
    · rw [if_pos hemp] at h
      simp at h
    · rw [if_neg hemp] at h
      dsimp only at h
      simp only [Option.some.injEq] at h
      subst h
      exact fun hnil => hemp (by simp [hnil])

/-- A successful local attempt carries a non-empty photo list. -/
lemma fromLocalAttempt_success (f : HttpFetch) (d : String) (ph : List PhotoRecord)
    (h : (fromLocalAttempt f d).photos = some ph) : ph ≠ [] := by
  rcases f with msg | ⟨status, data⟩
  · simp [fromLocalAttempt] at h
  · simp only [fromLocalAttempt] at h
    by_cases hok : httpOk status = true
    · rw [if_pos hok] at h
      by_cases hemp : (parseLocalManifest data d).isEmpty = true
      · rw [if_pos hemp] at h
        simp at h
      · rw [if_neg hemp] at h
        dsimp only at h
        simp only [Option.some.injEq] at h
        subst h
        exact fun hnil => hemp (by simp [hnil])
    · rw [if_neg hok] at h
      simp at h

/-- A successful adapter attempt carries a non-empty photo list. -/
lemma attempt_photos_ne_nil (w : FetchWorld) (d : String) (s : Source)
    (ph : List PhotoRecord) (h : (attemptOf w d s).photos = some ph) : ph ≠ [] := by
  cases s
  · exact fromApiAttempt_success w.apiFetch d ph h
  · exact fromOneDriveAttempt_success w.oneDriveItems d ph h
  · exact fromLocalAttempt_success w.localFetch d ph h

/-- On a failed attempt the recorded state survives
`textOrDefault(..., 'error')` unchanged. -/
lemma attempt_state_fix (w : FetchWorld) (d : String) (s : Source)
    (h : (attemptOf w d s).photos = none) :
    textOrDefaultS (attemptOf w d s).state "error" = (attemptOf w d s).state := by
  have hcases : (attemptOf w d s).state = "empty" ∨ (attemptOf w d s).state = "missing" ∨
      (attemptOf w d s).state = "error" := by
    cases s
    · exact fromApiAttempt_failure w.apiFetch d h
    · exact fromOneDriveAttempt_failure w.oneDriveItems d h
    · exact fromLocalAttempt_failure w.localFetch d h
  rcases hcases with heq | heq | heq <;> rw [heq] <;> decide

lemma contains_map_any (l : List α) (f : α → String) (x : String) :
    (l.map f).contains x = l.any (fun a => f a == x) := by
  induction l with
  | nil => rfl
  | cons a l ih =>
      simp only [List.map_cons, List.contains_cons, List.any_cons, ih]
      rw [Bool.or_comm]
      rw [Bool.or_comm (f a == x)]
      congr 1
      simp [BEq.comm]

lemma any_congr_mem (l : List α) (f g : α → Bool) (h : ∀ x ∈ l, f x = g x) :
    l.any f = l.any g := by
  induction l with
  | nil => rfl
  | cons a l ih =>
      simp only [List.any_cons, h a (List.mem_cons_self a l),
        ih (fun x hx => h x (List.mem_cons_of_mem a hx))]

/-- C1: when the adapters configured before `s` (in the order API, cloud
share, local manifest) all fail and `s` succeeds with the photo list
`ph`, `loadBestSource` returns the gallery of `ph` and attempts exactly
the adapters up to and including `s` — later adapters are never
attempted.  The winning list is non-empty. -/
theorem loadBestSource_first_success (cfg : LoadConfig) (w : FetchWorld)
    (pre rest : List Source) (s : Source) (ph : List PhotoRecord)
    (hconf : configuredSources cfg = pre ++ s :: rest)
    (hpre : ∀ t ∈ pre, (attemptOf w (descOf cfg) t).photos = none)
    (hs : (attemptOf w (descOf cfg) s).photos = some ph) :
    loadBestSource cfg w = (.gallery ph, pre ++ [s]) ∧ ph ≠ [] := by
  refine ⟨?_, attempt_photos_ne_nil w (descOf cfg) s ph hs⟩
  rw [loadBestSource_eq cfg w, hconf, List.map_append, List.map_cons]
  rw [resolveChain_firstWin (pre.map fun t => (t, attemptOf w (descOf cfg) t)) s _ _ _ _
    ph (fun p hp => by
      rcases List.mem_map.mp hp with ⟨t, ht, rfl⟩
      exact hpre t ht) hs]
  rw [List.map_map,
    show (Prod.fst ∘ fun t => (t, attemptOf w (descOf cfg) t)) = id from rfl,
    List.map_id, List.nil_append]

/-- C1 witness: with a working API endpoint and a broken share link, the
API-derived gallery is returned and only the API adapter is attempted. -/
theorem loadBestSource_first_success_witness :
    loadBestSource w1Cfg w1World = (.gallery [w1Photo], [Source.api]) :=
  (loadBestSource_first_success w1Cfg w1World [] [Source.oneDrive] Source.api
    [w1Photo] (by decide) (by decide) (by decide)).1

/-- C2: when every configured adapter attempt fails, `loadBestSource`
returns the fallback outcome (a `null` return), attempts all configured
adapters, and renders the "No Photos" panel exactly when some attempt's
recorded failure state is classified `empty`, the "Coming Soon" panel
otherwise. -/
theorem loadBestSource_exhausted (cfg : LoadConfig) (w : FetchWorld)
    (hall : ∀ t ∈ configuredSources cfg,
      (attemptOf w (descOf cfg) t).photos = none) :
    loadBestSource cfg w =
      (.fallback (if (configuredSources cfg).any
            (fun t => (attemptOf w (descOf cfg) t).state == "empty")
          then Panel.noPhotos else Panel.comingSoon),
        configuredSources cfg) := by
  rw [loadBestSource_eq cfg w]
  rw [resolveChain_allFail _ [] [] (fun p hp => by
    rcases List.mem_map.mp hp with ⟨t, ht, rfl⟩
    exact hall t ht)]
  have htrace : ((configuredSources cfg).map
      (fun s => (s, attemptOf w (descOf cfg) s))).map Prod.fst =
      configuredSources cfg := by
    rw [List.map_map,
      show (Prod.fst ∘ fun s => (s, attemptOf w (descOf cfg) s)) = id from rfl,
      List.map_id]
  have hpanel : finalPanel ([] ++ ((configuredSources cfg).map
      (fun s => (s, attemptOf w (descOf cfg) s))).map
        (fun p => textOrDefaultS p.2.state "error")) =
      (if (configuredSources cfg).any
          (fun t => (attemptOf w (descOf cfg) t).state == "empty")
        then Panel.noPhotos else Panel.comingSoon) := by
    simp only [List.nil_append, finalPanel, List.map_map]
    rw [contains_map_any]
    rw [any_congr_mem _ _ (fun t => (attemptOf w (descOf cfg) t).state == "empty")
      (fun t ht => by
        simp only [Function.comp]
        rw [attempt_state_fix w (descOf cfg) t (hall t ht)])]
  rw [htrace, hpanel, List.nil_append]

/-- C2 witness: all three adapters configured and all failing with
zero-photo outcomes renders the "No Photos" panel, not the generic one. -/
theorem loadBestSource_exhausted_witness :
    loadBestSource w2Cfg w2World =
      (.fallback Panel.noPhotos, [Source.api, Source.oneDrive, Source.localManifest]) := by
  rw [loadBestSource_exhausted w2Cfg w2World (by decide)]
  decide

end PhotoGallery
